import Mathlib

/-!
# api2captcha: submit / poll protocol of the 2captcha client

A shallow embedding of `api2captcha.go`.  The client talks to the outside
world in four ways: HTTP calls, `time.Sleep`, `time.Now` and `os.Open`.  These
are modelled by an environment `Env` of oracles (what the service replies to the
n-th call, how long the n-th call and the n-th sleep take, which paths can be
opened) and a `World` threaded through every operation (monotonic clock,
counters, the `Timeout` field of `c.httpClient`, and the trace of effects).

Conventions.
* Go `int` is taken to be 64 bits wide; `time.Duration` is an `int64` count of
  nanoseconds and `time.Duration(n) * time.Second` wraps as Go arithmetic does.
* Go strings are modelled by `String`; `strings.HasPrefix` compares the leading
  elements and `data[3:]` drops the first three.  The slice is only reached
  behind a successful `HasPrefix(data, "OK|")` test, where the three elements
  dropped are the three ASCII bytes of the prefix.
* `req.Params` is a non-nil map, modelled by an association list (assigning
  into a nil map panics; such a request is outside the model); `req.Files`
  is listed in the order the `range` loop visits it.
* The client comes from `NewClient`, so `c.httpClient` is set; its exported
  fields may have been reassigned, `BaseURL` to a URL from which
  `http.NewRequest` can build a request (any URL made by `url.Parse`).
* Every HTTP call comes back, with a response or a transport error.
* A function returning `(T, error)` is modelled by `Except Err T`;
  `GetResult`, returning `(*string, error)`, by `Except Err (Option String)`.
* `WaitForResult` loops; the model takes a fuel argument bounding the number
  of loop-head evaluations and answers `none` when it runs out.
-/

namespace Api2Captcha

/-! ## Data model -/

/-- Error values.  The first three are the package-level sentinels of the
source; the others are errors of the standard library that the source returns
unchanged: the `*os.PathError` of a failed `os.Open`, the error of a failed
read of the response body, and the `*strconv.NumError` of `ParseFloat`. -/
inductive Err where
  | ErrNetwork
  | ErrApi
  | ErrTimeout
  | pathError (path : String)
  | readError
  | numError (text : String)
  deriving DecidableEq, Repr

deriving instance DecidableEq for Except

/-- Go `map[string]string`, as an association list. -/
abbrev Params := List (String × String)

/-- Map lookup `m[k]`: the zero value `""` when the key is absent. -/
def Params.get : Params → String → String
  | [], _ => ""
  | (k, v) :: rest, key => if k = key then v else Params.get rest key

/-- Map assignment `m[k] = v`. -/
def Params.set : Params → String → String → Params
  | [], key, val => [(key, val)]
  | (k, v) :: rest, key, val =>
    if k = key then (k, val) :: rest else (k, v) :: Params.set rest key val

/-- The `Request` struct: parameters and form-field name to file path. -/
structure Request where
  Params : Params
  Files : List (String × String)
  deriving DecidableEq, Repr

/-- The exported fields of `Client` that the protocol reads. -/
structure Client where
  BaseURL : String
  ApiKey : String
  DefaultTimeout : Int
  PollingInterval : Int
  RecaptchaTimeout : Int
  deriving DecidableEq, Repr

/-- The constant `BaseURL`. -/
def BaseURL : String := "https://2captcha.com"

/-- The constructor `NewClient(apiKey)`. -/
def NewClient (apiKey : String) : Client :=
  { BaseURL := BaseURL
    ApiKey := apiKey
    DefaultTimeout := 120
    PollingInterval := 5
    RecaptchaTimeout := 600 }

/-- An HTTP response as the client sees it: the status code and the body,
`none` when reading the body fails. -/
structure Response where
  StatusCode : Nat
  Body : Option String
  deriving DecidableEq, Repr

/-- The constant `http.StatusOK`. -/
def StatusOK : Nat := 200

/-- Effects, in the order they happen.  An HTTP call records the `Timeout` of
the `http.Client` that performs it, in nanoseconds (`0` means no timeout). -/
inductive Event where
  | sleep (d : Int)
  | get (path : String) (params : Params) (timeout : Int)
  | postForm (path : String) (params : Params) (timeout : Int)
  | postMultipart (path : String) (params : Params)
      (files : List (String × String)) (timeout : Int)
  deriving DecidableEq, Repr

/-- The oracles of one run. -/
structure Env where
  /-- What the n-th HTTP call returns; `none` is a transport error. -/
  reply : Nat → Option Response
  /-- How long the n-th HTTP call takes, in nanoseconds. -/
  latency : Nat → Nat
  /-- How much longer than asked the n-th sleep lasts, in nanoseconds. -/
  oversleep : Nat → Nat
  /-- Whether `os.Open` succeeds on a path. -/
  canOpen : String → Bool
  /-- The `Timeout` of `http.DefaultClient`; `0` unless the program changed it. -/
  defaultClientTimeout : Int

/-- The mutable state of one run. -/
structure World where
  /-- Monotonic clock reading, in nanoseconds. -/
  clock : Int
  /-- Number of HTTP calls made so far. -/
  calls : Nat
  /-- Number of sleeps made so far. -/
  sleeps : Nat
  /-- The field `c.httpClient.Timeout`. -/
  clientTimeout : Int
  /-- Effects so far, oldest first. -/
  trace : List Event
  deriving DecidableEq, Repr

/-- A fresh world: nothing has happened, `c.httpClient` is `&http.Client{}`. -/
def World.init : World :=
  { clock := 0, calls := 0, sleeps := 0, clientTimeout := 0, trace := [] }

/-! ## Library operations -/

/-- Reduction of an integer to the `int64` range (two's complement wrap). -/
def wrap64 (x : Int) : Int := (x + 2 ^ 63) % 2 ^ 64 - 2 ^ 63

/-- The conversion `time.Duration(n) * time.Second`, wrapping as `int64` does. -/
def seconds (n : Int) : Int := wrap64 (n * 1000000000)

/-- Largest `time.Duration`. -/
def maxDuration : Int := 2 ^ 63 - 1

/-- Smallest `time.Duration`. -/
def minDuration : Int := -(2 ^ 63)

/-- The method `t.Sub(u)` on monotonic clock readings: the difference, saturated to the
range of `time.Duration`. -/
def Sub (t u : Int) : Int :=
  if maxDuration < t - u then maxDuration
  else if t - u < minDuration then minDuration
  else t - u

/-- The function `strings.HasPrefix(s, pre)`. -/
def HasPrefix (s pre : String) : Bool := pre.toList.isPrefixOf s.toList

/-- The slice `s[3:]`. -/
def from3 (s : String) : String := String.mk (s.toList.drop 3)

/-- Actual length of the n-th sleep when `time.Sleep(d)` is called: a
non-positive `d` returns at once, otherwise at least `d` elapses. -/
def sleepTime (env : Env) (d : Int) (n : Nat) : Int :=
  max d 0 + (env.oversleep n : Int)

/-- The call `time.Sleep(d)`. -/
def Sleep (env : Env) (d : Int) (w : World) : World :=
  { w with
    clock := w.clock + sleepTime env d w.sleeps
    sleeps := w.sleeps + 1
    trace := w.trace ++ [Event.sleep d] }

/-- One HTTP call: record it, let its latency pass, return the oracle's answer. -/
def httpCall (env : Env) (ev : Event) (w : World) : Option Response × World :=
  (env.reply w.calls,
   { w with
     clock := w.clock + (env.latency w.calls : Int)
     calls := w.calls + 1
     trace := w.trace ++ [ev] })

/-- The file loop of the multipart branch of `Send`: the first path that
`os.Open` rejects, if any. -/
def firstUnopenable (env : Env) : List (String × String) → Option String
  | [] => none
  | (_, path) :: rest =>
    if env.canOpen path then firstUnopenable env rest else some path

/-! ## The client -/

/-- The method `Client.res`: the GET to `/res.php`. -/
def res (env : Env) (c : Client) (req : Request) (w : World) : Except Err String × World :=
  let params := req.Params.set "key" c.ApiKey
  let w1 := { w with clientTimeout := seconds c.DefaultTimeout }
  -- `http.Get` goes through `http.DefaultClient`
  match httpCall env (Event.get "/res.php" params env.defaultClientTimeout) w1 with
  | (none, w2) => (.error Err.ErrNetwork, w2)
  | (some resp, w2) =>
    match resp.Body with
    | none => (.error Err.readError, w2)
    | some data =>
      if resp.StatusCode ≠ StatusOK then (.error Err.ErrApi, w2)
      else if HasPrefix data "ERROR_" then (.error Err.ErrApi, w2)
      else (.ok data, w2)

/-- The method `Client.resAction`. -/
def resAction (env : Env) (c : Client) (action : String) (w : World) :
    Except Err String × World :=
  res env c { Params := [("action", action)], Files := [] } w

/-- The first half of `Client.Send`: build and issue the POST to `/in.php`.
The multipart branch opens every file first and goes through `c.httpClient`;
the other branch uses `http.PostForm`, that is `http.DefaultClient`.  Writes
into the in-memory multipart buffer do not fail, and `http.NewRequest` accepts
the URL (see the conventions on `BaseURL`). -/
def sendRequest (env : Env) (c : Client) (req : Request) (w : World) :
    Except Err Response × World :=
  let params := req.Params.set "key" c.ApiKey
  let w1 := { w with clientTimeout := seconds c.DefaultTimeout }
  if req.Files ≠ [] then
    match firstUnopenable env req.Files with
    | some path => (.error (Err.pathError path), w1)
    | none =>
      match httpCall env (Event.postMultipart "/in.php" params req.Files w1.clientTimeout) w1 with
      | (none, w2) => (.error Err.ErrNetwork, w2)
      | (some resp, w2) => (.ok resp, w2)
  else
    match httpCall env (Event.postForm "/in.php" params env.defaultClientTimeout) w1 with
    | (none, w2) => (.error Err.ErrNetwork, w2)
    | (some resp, w2) => (.ok resp, w2)

/-- The method `Client.Send`: the response is interpreted once the request of
`sendRequest` has come back. -/
def Send (env : Env) (c : Client) (req : Request) (w : World) : Except Err String × World :=
  match sendRequest env c req w with
  | (.error e, w2) => (.error e, w2)
  | (.ok resp, w2) =>
    match resp.Body with
    | none => (.error Err.readError, w2)
    | some data =>
      if resp.StatusCode ≠ StatusOK then (.error Err.ErrApi, w2)
      else if HasPrefix data "ERROR_" then (.error Err.ErrApi, w2)
      else if !HasPrefix data "OK|" then (.error Err.ErrApi, w2)
      else (.ok (from3 data), w2)

/-- The method `Client.GetResult`: `.ok none` is the pair `(nil, nil)`. -/
def GetResult (env : Env) (c : Client) (id : String) (w : World) :
    Except Err (Option String) × World :=
  match res env c { Params := [("action", "get"), ("id", id)], Files := [] } w with
  | (.error e, w1) => (.error e, w1)
  | (.ok data, w1) =>
    if data = "CAPCHA_NOT_READY" then (.ok none, w1)
    else if !HasPrefix data "OK|" then (.error Err.ErrApi, w1)
    else (.ok (some (from3 data)), w1)

/-- The loop of `Client.WaitForResult`, with the variables `start` and `now`. -/
def waitLoop (env : Env) (c : Client) (id : String) (timeout interval : Int) (start : Int) :
    Nat → Int → World → Option (Except Err String × World)
  | 0, _, _ => none
  | fuel + 1, now, w =>
    if Sub now start < seconds timeout then
      let w1 := Sleep env (seconds interval) w
      match GetResult env c id w1 with
      | (.ok (some code), w2) => some (.ok code, w2)
      | (.error e, w2) =>
        if e ≠ Err.ErrNetwork then some (.error e, w2)
        else waitLoop env c id timeout interval start fuel w2.clock w2
      | (.ok none, w2) => waitLoop env c id timeout interval start fuel w2.clock w2
    else some (.error Err.ErrTimeout, w)

/-- The method `Client.WaitForResult`. -/
def WaitForResult (fuel : Nat) (env : Env) (c : Client) (id : String)
    (timeout interval : Int) (w : World) : Option (Except Err String × World) :=
  waitLoop env c id timeout interval w.clock fuel w.clock w

/-- The method `Client.Solve`.  `Send` has stored the key in the map `req.Params`, which
the caller shares, before the method is looked up. -/
def Solve (fuel : Nat) (env : Env) (c : Client) (req : Request) (w : World) :
    Option (Except Err String × World) :=
  match Send env c req w with
  | (.error e, w1) => some (.error e, w1)
  | (.ok id, w1) =>
    let params := req.Params.set "key" c.ApiKey
    let timeout :=
      if params.get "method" = "userrecaptcha" then c.RecaptchaTimeout else c.DefaultTimeout
    WaitForResult fuel env c id timeout c.PollingInterval w1

/-- The operations on `float64` that the source takes from the standard
library: the comparison `x != 0`, `strconv.FormatFloat(x, 'f', -1, 64)` and
`strconv.ParseFloat(s, 64)` (`none` when it returns an error). -/
structure Float64 (F : Type) where
  nonZero : F → Bool
  FormatFloat : F → String
  ParseFloat : String → Option F

/-- The method `Client.GetBalance`. -/
def GetBalance {F : Type} (fl : Float64 F) (env : Env) (c : Client) (w : World) :
    Except Err F × World :=
  match resAction env c "getbalance" w with
  | (.error e, w1) => (.error e, w1)
  | (.ok data, w1) =>
    match fl.ParseFloat data with
    | some v => (.ok v, w1)
    | none => (.error (Err.numError data), w1)

/-- The method `Request.SetProxy`. -/
def Request.SetProxy (req : Request) (proxyType uri : String) : Request :=
  { req with Params := (req.Params.set "proxytype" proxyType).set "proxy" uri }

/-- The `ReCaptcha` struct. -/
structure ReCaptcha (F : Type) where
  SiteKey : String
  Url : String
  Invisible : Bool
  Version : String
  Action : String
  Score : F

/-- The method `ReCaptcha.ToRequest`. -/
def ReCaptcha.ToRequest {F : Type} (fl : Float64 F) (c : ReCaptcha F) : Request :=
  let p0 : Params := [("method", "userrecaptcha")]
  let p1 := if c.SiteKey ≠ "" then p0.set "googlekey" c.SiteKey else p0
  let p2 := if c.Url ≠ "" then p1.set "pageurl" c.Url else p1
  let p3 := if c.Invisible then p2.set "invisible" "1" else p2
  let p4 := if c.Version ≠ "" then p3.set "version" c.Version else p3
  let p5 := if c.Action ≠ "" then p4.set "action" c.Action else p4
  let p6 := if fl.nonZero c.Score then p5.set "min_score" (fl.FormatFloat c.Score) else p5
  { Params := p6, Files := [] }

/-! ## Fixtures -/

/-- An environment in which calls take no time and sleeps last exactly as long
as asked, every file opens, and `http.DefaultClient` is untouched. -/
def idealEnv (reply : Nat → Option Response) : Env :=
  { reply := reply
    latency := fun _ => 0
    oversleep := fun _ => 0
    canOpen := fun _ => true
    defaultClientTimeout := 0 }

/-- A readable response. -/
def text (status : Nat) (body : String) : Option Response :=
  some { StatusCode := status, Body := some body }

/-- Scenario A of the specification: the submit is answered `OK|55667`, two
polls `CAPCHA_NOT_READY`, the third `OK|abcdef`. -/
def scenarioA : Nat → Option Response
  | 0 => text 200 "OK|55667"
  | 1 => text 200 "CAPCHA_NOT_READY"
  | 2 => text 200 "CAPCHA_NOT_READY"
  | _ => text 200 "OK|abcdef"

/-! ## Derived notions used to state the properties -/

/-- The outcome `GetResult` reports when its GET is HTTP call number `n`. -/
def pollOutcome (env : Env) (c : Client) (id : String) (n : Nat) : Except Err (Option String) :=
  (GetResult env c id { World.init with calls := n }).1

/-- One iteration of the polling loop that does not leave it: sleep, then poll. -/
def round (env : Env) (c : Client) (id : String) (interval : Int) (w : World) : World :=
  (GetResult env c id (Sleep env (seconds interval) w)).2

/-- The world after `j` iterations of the polling loop. -/
def afterRounds (env : Env) (c : Client) (id : String) (interval : Int) : Nat → World → World
  | 0, w => w
  | j + 1, w => afterRounds env c id interval j (round env c id interval w)

/-- Number of polls (GETs) in a trace. -/
def pollCount : List Event → Nat
  | [] => 0
  | Event.get _ _ _ :: rest => pollCount rest + 1
  | _ :: rest => pollCount rest

/-- The parameters `GetResult` sends. -/
def pollParams (c : Client) (id : String) : Params :=
  [("action", "get"), ("id", id), ("key", c.ApiKey)]

/-- The trace of `j` iterations: each a sleep followed by a poll. -/
def roundsTrace (env : Env) (c : Client) (id : String) (d : Int) : Nat → List Event
  | 0 => []
  | j + 1 =>
    Event.sleep d
      :: Event.get "/res.php" (pollParams c id) env.defaultClientTimeout
      :: roundsTrace env c id d j

/-- The number of whole sleep-then-poll rounds that fit before the deadline when
rounds last `interval` seconds: `timeout / interval` rounded up. -/
def ceilDiv (timeout interval : Int) : Nat := ((timeout + interval - 1) / interval).toNat

/-- A service whose every answer is status 200 with the same body. -/
def always (body : String) : Nat → Option Response := fun _ => text 200 body

/-- A timeout, in seconds, beyond the range of `time.Duration`: about 292 years. -/
def hugeTimeout : Int := 9223372037

/-- Scenario B of the specification: the submit is answered `ERROR_WRONG_USER_KEY`. -/
def scenarioB : Nat → Option Response := always "ERROR_WRONG_USER_KEY"

/-- A task that is reported unsolvable at the second poll. -/
def unsolvable : Nat → Option Response
  | 0 => text 200 "CAPCHA_NOT_READY"
  | _ => text 200 "ERROR_CAPTCHA_UNSOLVABLE"

/-- The response to HTTP call number `n` arrived but its body could not be read. -/
def Env.bodyUnreadable (env : Env) (n : Nat) : Prop :=
  ∃ resp, env.reply n = some resp ∧ resp.Body = none

/-- From HTTP call number `n0` on, every response that arrives is read in full. -/
def Env.bodiesReadableFrom (env : Env) (n0 : Nat) : Prop :=
  ∀ n resp, n0 ≤ n → env.reply n = some resp → resp.Body ≠ none

/-- A service whose every response has the given status and a body that
cannot be read to its end. -/
def brokenBody (status : Nat) : Nat → Option Response :=
  fun _ => some { StatusCode := status, Body := none }

/-- A stand-in for the `float64` operations that knows unsigned whole numbers
only.  Like `strconv.ParseFloat` it rejects `abc` and the empty string. -/
def wholeNumbers : Float64 Nat :=
  { nonZero := fun x => x != 0
    FormatFloat := fun x => String.mk (Nat.toDigits 10 x)
    ParseFloat := fun s =>
      if s.toList ≠ [] ∧ s.toList.all Char.isDigit = true then
        some (s.toList.foldl (fun n ch => 10 * n + (ch.toNat - 48)) 0)
      else none }

/-- An environment like `idealEnv` in which no file can be opened. -/
def noFilesEnv (reply : Nat → Option Response) : Env :=
  { idealEnv reply with canOpen := fun _ => false }

/-- A reCAPTCHA v3 task. -/
def sampleReCaptcha : ReCaptcha Nat :=
  { SiteKey := "6Le-wvkS", Url := "https://example.com", Invisible := true,
    Version := "v3", Action := "verify", Score := 3 }

/-- A request with one attachment. -/
def fileRequest : Request :=
  { Params := [("method", "post")], Files := [("file", "/tmp/captcha.png")] }

/-! ## Basic facts -/

theorem wrap64_of_range (x : Int) (h1 : -(2 ^ 63) ≤ x) (h2 : x < 2 ^ 63) : wrap64 x = x := by
  unfold wrap64
  rw [Int.emod_eq_of_lt (by omega) (by omega)]
  omega

theorem wrap64_range (x : Int) : -(2 ^ 63) ≤ wrap64 x ∧ wrap64 x < 2 ^ 63 := by
  unfold wrap64
  have h1 := Int.emod_nonneg (x + 2 ^ 63) (show (2 : Int) ^ 64 ≠ 0 by norm_num)
  have h2 := Int.emod_lt_of_pos (x + 2 ^ 63) (show (0 : Int) < 2 ^ 64 by norm_num)
  constructor <;> omega

theorem seconds_of_range (n : Int) (h1 : -(2 ^ 63) ≤ n * 1000000000)
    (h2 : n * 1000000000 < 2 ^ 63) : seconds n = n * 1000000000 :=
  wrap64_of_range _ h1 h2

/-- Against a representable bound the saturation of `Sub` is invisible. -/
theorem Sub_lt_iff (t u d : Int) (hu : u ≤ t) (hd : d < 2 ^ 63) : Sub t u < d ↔ t - u < d := by
  unfold Sub maxDuration minDuration
  split_ifs <;> constructor <;> intro h <;> omega

theorem pollParams_eq (c : Client) (id : String) :
    Params.set [("action", "get"), ("id", id)] "key" c.ApiKey = pollParams c id := by
  simp [Params.set, pollParams]

theorem res_snd (env : Env) (c : Client) (req : Request) (w : World) :
    (res env c req w).2 =
      { clock := w.clock + (env.latency w.calls : Int)
        calls := w.calls + 1
        sleeps := w.sleeps
        clientTimeout := seconds c.DefaultTimeout
        trace := w.trace ++
          [Event.get "/res.php" (req.Params.set "key" c.ApiKey) env.defaultClientTimeout] } := by
  unfold res httpCall
  dsimp only
  cases env.reply w.calls with
  | none => rfl
  | some resp =>
    dsimp only
    cases resp.Body with
    | none => rfl
    | some data => dsimp only; split_ifs <;> rfl

theorem GetResult_snd (env : Env) (c : Client) (id : String) (w : World) :
    (GetResult env c id w).2 =
      { clock := w.clock + (env.latency w.calls : Int)
        calls := w.calls + 1
        sleeps := w.sleeps
        clientTimeout := seconds c.DefaultTimeout
        trace := w.trace ++ [Event.get "/res.php" (pollParams c id) env.defaultClientTimeout] } := by
  have h := res_snd env c { Params := [("action", "get"), ("id", id)], Files := [] } w
  rw [pollParams_eq] at h
  unfold GetResult
  generalize res env c { Params := [("action", "get"), ("id", id)], Files := [] } w = r at h ⊢
  obtain ⟨r1, r2⟩ := r
  cases r1 with
  | error e => exact h
  | ok data => simp only at h ⊢; split_ifs <;> exact h

/-- The first component of `res` depends on the world only through the call index. -/
theorem res_fst_congr (env : Env) (c : Client) (req : Request) (w v : World)
    (h : w.calls = v.calls) : (res env c req w).1 = (res env c req v).1 := by
  unfold res httpCall
  dsimp only
  rw [h]
  cases env.reply v.calls with
  | none => rfl
  | some resp =>
    dsimp only
    cases resp.Body with
    | none => rfl
    | some data => dsimp only; split_ifs <;> rfl

theorem GetResult_fst (env : Env) (c : Client) (id : String) (w : World) :
    (GetResult env c id w).1 = pollOutcome env c id w.calls := by
  have h := res_fst_congr env c { Params := [("action", "get"), ("id", id)], Files := [] } w
    { World.init with calls := w.calls } rfl
  unfold pollOutcome GetResult
  generalize res env c { Params := [("action", "get"), ("id", id)], Files := [] } w = r at h ⊢
  generalize res env c { Params := [("action", "get"), ("id", id)], Files := [] }
    { World.init with calls := w.calls } = r2 at h ⊢
  obtain ⟨a, b⟩ := r
  obtain ⟨a2, b2⟩ := r2
  simp only at h
  subst h
  cases a with
  | error e => rfl
  | ok data => simp only; split_ifs <;> rfl

/-! ## The polling loop -/

theorem round_eq (env : Env) (c : Client) (id : String) (interval : Int) (w : World) :
    round env c id interval w =
      { clock := w.clock + sleepTime env (seconds interval) w.sleeps + (env.latency w.calls : Int)
        calls := w.calls + 1
        sleeps := w.sleeps + 1
        clientTimeout := seconds c.DefaultTimeout
        trace := w.trace ++
          [Event.sleep (seconds interval),
           Event.get "/res.php" (pollParams c id) env.defaultClientTimeout] } := by
  unfold round
  rw [GetResult_snd]
  simp [Sleep]

/-- One evaluation of the loop head, in terms of the poll's outcome. -/
theorem waitLoop_step (env : Env) (c : Client) (id : String) (timeout interval start : Int)
    (fuel : Nat) (now : Int) (w : World) :
    waitLoop env c id timeout interval start (fuel + 1) now w =
      if Sub now start < seconds timeout then
        match pollOutcome env c id w.calls with
        | .ok (some code) => some (.ok code, round env c id interval w)
        | .error e =>
          if e ≠ Err.ErrNetwork then some (.error e, round env c id interval w)
          else waitLoop env c id timeout interval start fuel
            (round env c id interval w).clock (round env c id interval w)
        | .ok none => waitLoop env c id timeout interval start fuel
            (round env c id interval w).clock (round env c id interval w)
      else some (.error Err.ErrTimeout, w) := by
  have h1 : (GetResult env c id (Sleep env (seconds interval) w)).1
      = pollOutcome env c id w.calls := by
    rw [GetResult_fst]; rfl
  have h2 : (GetResult env c id (Sleep env (seconds interval) w)).2
      = round env c id interval w := rfl
  rw [waitLoop]
  dsimp only
  generalize GetResult env c id (Sleep env (seconds interval) w) = r at h1 h2 ⊢
  obtain ⟨a, b⟩ := r
  simp only at h1 h2
  rw [← h1, ← h2]
  cases a with
  | error e => rfl
  | ok o => cases o <;> rfl

theorem afterRounds_add (env : Env) (c : Client) (id : String) (interval : Int) :
    ∀ (i m : Nat) (w : World),
      afterRounds env c id interval (i + m) w
        = afterRounds env c id interval m (afterRounds env c id interval i w)
  | 0, m, w => by simp [afterRounds]
  | i + 1, m, w => by
    rw [show i + 1 + m = (i + m) + 1 by omega]
    simp only [afterRounds]
    exact afterRounds_add env c id interval i m _

theorem afterRounds_succ (env : Env) (c : Client) (id : String) (interval : Int)
    (j : Nat) (w : World) :
    afterRounds env c id interval (j + 1) w
      = round env c id interval (afterRounds env c id interval j w) := by
  rw [afterRounds_add]; rfl

theorem afterRounds_calls (env : Env) (c : Client) (id : String) (interval : Int) :
    ∀ (j : Nat) (w : World), (afterRounds env c id interval j w).calls = w.calls + j
  | 0, w => rfl
  | j + 1, w => by
    simp only [afterRounds]
    rw [afterRounds_calls env c id interval j, round_eq]
    simp only
    omega

theorem afterRounds_sleeps (env : Env) (c : Client) (id : String) (interval : Int) :
    ∀ (j : Nat) (w : World), (afterRounds env c id interval j w).sleeps = w.sleeps + j
  | 0, w => rfl
  | j + 1, w => by
    simp only [afterRounds]
    rw [afterRounds_sleeps env c id interval j, round_eq]
    simp only
    omega

theorem afterRounds_trace (env : Env) (c : Client) (id : String) (interval : Int) :
    ∀ (j : Nat) (w : World),
      (afterRounds env c id interval j w).trace
        = w.trace ++ roundsTrace env c id (seconds interval) j
  | 0, w => by simp [afterRounds, roundsTrace]
  | j + 1, w => by
    simp only [afterRounds]
    rw [afterRounds_trace env c id interval j, round_eq]
    simp [roundsTrace]

theorem sleepTime_nonneg (env : Env) (d : Int) (n : Nat) : 0 ≤ sleepTime env d n := by
  unfold sleepTime
  have := le_max_right d 0
  omega

theorem round_clock_le (env : Env) (c : Client) (id : String) (interval : Int) (w : World) :
    w.clock ≤ (round env c id interval w).clock := by
  rw [round_eq]
  have := sleepTime_nonneg env (seconds interval) w.sleeps
  simp only
  omega

theorem afterRounds_clock_le (env : Env) (c : Client) (id : String) (interval : Int) :
    ∀ (j : Nat) (w : World), w.clock ≤ (afterRounds env c id interval j w).clock
  | 0, w => le_refl _
  | j + 1, w => by
    simp only [afterRounds]
    exact le_trans (round_clock_le env c id interval w)
      (afterRounds_clock_le env c id interval j _)

theorem afterRounds_clock_mono (env : Env) (c : Client) (id : String) (interval : Int)
    (i j : Nat) (h : i ≤ j) (w : World) :
    (afterRounds env c id interval i w).clock ≤ (afterRounds env c id interval j w).clock := by
  obtain ⟨m, rfl⟩ := Nat.exists_eq_add_of_le h
  rw [afterRounds_add]
  exact afterRounds_clock_le env c id interval m _

/-- With instantaneous calls and sleeps that last exactly `interval` seconds,
`j` iterations take `j * interval` seconds. -/
theorem afterRounds_clock_ideal (env : Env) (c : Client) (id : String) (interval : Int)
    (hlat : ∀ n, env.latency n = 0)
    (hsleep : ∀ n, sleepTime env (seconds interval) n = interval * 1000000000) :
    ∀ (j : Nat) (w : World),
      (afterRounds env c id interval j w).clock = w.clock + (j : Int) * (interval * 1000000000)
  | 0, w => by simp [afterRounds]
  | j + 1, w => by
    simp only [afterRounds]
    rw [afterRounds_clock_ideal env c id interval hlat hsleep j, round_eq]
    simp only [hlat, hsleep]
    push_cast
    ring

theorem Sub_mono (t s u : Int) (h : t ≤ s) : Sub t u ≤ Sub s u := by
  unfold Sub maxDuration minDuration
  split_ifs <;> omega

/-- While the polls answer "not ready" or fail in transport and the deadline
has not passed at the loop head, the loop goes on: `j` iterations are `j` rounds. -/
theorem waitLoop_rounds (env : Env) (c : Client) (id : String) (timeout interval start : Int) :
    ∀ (j : Nat) (w : World) (fuel : Nat),
      (∀ i, i < j → pollOutcome env c id (w.calls + i) = .ok none
        ∨ pollOutcome env c id (w.calls + i) = .error Err.ErrNetwork) →
      (∀ i, i < j → Sub (afterRounds env c id interval i w).clock start < seconds timeout) →
      waitLoop env c id timeout interval start (fuel + j) w.clock w
        = waitLoop env c id timeout interval start fuel
            (afterRounds env c id interval j w).clock (afterRounds env c id interval j w)
  | 0, w, fuel, _, _ => rfl
  | j + 1, w, fuel, hpoll, hguard => by
    have hg : Sub w.clock start < seconds timeout := hguard 0 (by omega)
    have hp := hpoll 0 (by omega)
    have hcalls : (round env c id interval w).calls = w.calls + 1 := by rw [round_eq]
    have ih := waitLoop_rounds env c id timeout interval start j (round env c id interval w) fuel
      (fun i hi => by
        have := hpoll (i + 1) (by omega)
        rw [hcalls, show w.calls + 1 + i = w.calls + (i + 1) by omega]
        exact this)
      (fun i hi => hguard (i + 1) (by omega))
    rw [show fuel + (j + 1) = (fuel + j) + 1 by omega, waitLoop_step, if_pos hg]
    simp only [Nat.add_zero] at hp
    rcases hp with hp | hp
    · rw [hp]; exact ih
    · rw [hp]; simp only [ne_eq, not_true_eq_false, if_false]; exact ih

/-- The guard at the head of a later iteration gives the guard at every earlier one. -/
theorem guard_earlier (env : Env) (c : Client) (id : String) (timeout interval start : Int)
    (j : Nat) (w : World)
    (h : Sub (afterRounds env c id interval j w).clock start < seconds timeout) :
    ∀ i, i < j + 1 → Sub (afterRounds env c id interval i w).clock start < seconds timeout :=
  fun i hi => lt_of_le_of_lt
    (Sub_mono _ _ _ (afterRounds_clock_mono env c id interval i j (by omega) w)) h

/-! ## Interpreting one response -/

theorem sendRequest_sent (env : Env) (c : Client) (req : Request) (w : World)
    (hfiles : firstUnopenable env req.Files = none) :
    (sendRequest env c req w).1 =
      match env.reply w.calls with
      | none => .error Err.ErrNetwork
      | some resp => .ok resp := by
  unfold sendRequest httpCall
  dsimp only
  split_ifs with hne
  · rw [hfiles]
    dsimp only
    cases env.reply w.calls <;> rfl
  · cases env.reply w.calls <;> rfl

theorem Send_reply (env : Env) (c : Client) (req : Request) (w : World) (status : Nat)
    (body : String) (hfiles : firstUnopenable env req.Files = none)
    (hreply : env.reply w.calls = some { StatusCode := status, Body := some body }) :
    (Send env c req w).1 =
      if status ≠ StatusOK then .error Err.ErrApi
      else if HasPrefix body "ERROR_" then .error Err.ErrApi
      else if !HasPrefix body "OK|" then .error Err.ErrApi
      else .ok (from3 body) := by
  have h := sendRequest_sent env c req w hfiles
  rw [hreply] at h
  unfold Send
  generalize sendRequest env c req w = r at h ⊢
  obtain ⟨a, b⟩ := r
  dsimp only at h
  subst h
  dsimp only
  split_ifs <;> rfl

theorem res_reply (env : Env) (c : Client) (req : Request) (w : World) (status : Nat)
    (body : String)
    (hreply : env.reply w.calls = some { StatusCode := status, Body := some body }) :
    (res env c req w).1 =
      if status ≠ StatusOK then .error Err.ErrApi
      else if HasPrefix body "ERROR_" then .error Err.ErrApi
      else .ok body := by
  unfold res httpCall
  dsimp only
  rw [hreply]
  dsimp only
  split_ifs <;> rfl

theorem GetResult_reply (env : Env) (c : Client) (id : String) (w : World) (status : Nat)
    (body : String)
    (hreply : env.reply w.calls = some { StatusCode := status, Body := some body }) :
    (GetResult env c id w).1 =
      if status ≠ StatusOK then .error Err.ErrApi
      else if HasPrefix body "ERROR_" then .error Err.ErrApi
      else if body = "CAPCHA_NOT_READY" then .ok none
      else if !HasPrefix body "OK|" then .error Err.ErrApi
      else .ok (some (from3 body)) := by
  have h := res_reply env c { Params := [("action", "get"), ("id", id)], Files := [] } w
    status body hreply
  unfold GetResult
  generalize res env c { Params := [("action", "get"), ("id", id)], Files := [] } w = r at h ⊢
  obtain ⟨a, b⟩ := r
  dsimp only at h
  subst h
  split_ifs <;> simp_all

theorem GetBalance_reply {F : Type} (fl : Float64 F) (env : Env) (c : Client) (w : World)
    (status : Nat) (body : String)
    (hreply : env.reply w.calls = some { StatusCode := status, Body := some body }) :
    (GetBalance fl env c w).1 =
      if status ≠ StatusOK then .error Err.ErrApi
      else if HasPrefix body "ERROR_" then .error Err.ErrApi
      else match fl.ParseFloat body with
        | some v => .ok v
        | none => .error (Err.numError body) := by
  have h := res_reply env c { Params := [("action", "getbalance")], Files := [] } w
    status body hreply
  unfold GetBalance resAction
  generalize res env c { Params := [("action", "getbalance")], Files := [] } w = r at h ⊢
  obtain ⟨a, b⟩ := r
  dsimp only at h
  subst h
  split_ifs
  · rfl
  · rfl
  · dsimp only
    cases fl.ParseFloat body <;> rfl

/-- A body that starts with `OK|` is that prefix followed by `from3` of it, and
does not start with `ERROR_`. -/
theorem HasPrefix_OK (body : String) (h : HasPrefix body "OK|" = true) :
    body = "OK|" ++ from3 body ∧ HasPrefix body "ERROR_" = false ∧ body ≠ "CAPCHA_NOT_READY" := by
  unfold HasPrefix at h
  rw [List.isPrefixOf_iff_prefix] at h
  obtain ⟨t, ht⟩ := h
  have hpre : "OK|".toList = ['O', 'K', '|'] := rfl
  have herr : "ERROR_".toList = ['E', 'R', 'R', 'O', 'R', '_'] := rfl
  rw [hpre] at ht
  have hb : body = String.mk ('O' :: 'K' :: '|' :: t) := String.ext ht.symm
  subst hb
  refine ⟨?_, ?_, ?_⟩
  · apply String.ext
    simp [from3]
  · unfold HasPrefix
    rw [herr]
    simp [List.isPrefixOf]
  · intro h
    have hd := congrArg String.toList h
    have hs : "CAPCHA_NOT_READY".toList
        = ['C', 'A', 'P', 'C', 'H', 'A', '_', 'N', 'O', 'T', '_', 'R', 'E', 'A', 'D', 'Y'] := rfl
    rw [hs] at hd
    simp at hd

/-! ## Response interpretation (C1, C2, C3) -/

/-- C1 (amended): for a response whose body is read in full, in the submit
context (`Send`, once the request has been sent) and in the poll context
(`res`, `GetResult`, `GetBalance`): a status other than 200 gives `ErrApi`
whatever the body is, and a body that begins with `ERROR_` gives `ErrApi`
whatever the status is, 200 included. -/
theorem C1_bad_status_or_error_body_is_ErrApi (env : Env) (c : Client) (w : World)
    (status : Nat) (body : String)
    (hreply : env.reply w.calls = some { StatusCode := status, Body := some body })
    (hbad : status ≠ 200 ∨ HasPrefix body "ERROR_" = true) :
    (∀ req : Request, firstUnopenable env req.Files = none →
        (Send env c req w).1 = .error Err.ErrApi)
    ∧ (∀ req : Request, (res env c req w).1 = .error Err.ErrApi)
    ∧ (∀ id : String, (GetResult env c id w).1 = .error Err.ErrApi)
    ∧ (∀ (F : Type) (fl : Float64 F), (GetBalance fl env c w).1 = .error Err.ErrApi) := by
  refine ⟨fun req hfiles => ?_, fun req => ?_, fun id => ?_, fun F fl => ?_⟩
  · rw [Send_reply env c req w status body hfiles hreply]
    rcases hbad with h | h
    · rw [if_pos (by simpa [StatusOK] using h)]
    · split_ifs <;> rfl
  · rw [res_reply env c req w status body hreply]
    rcases hbad with h | h
    · rw [if_pos (by simpa [StatusOK] using h)]
    · split_ifs <;> rfl
  · rw [GetResult_reply env c id w status body hreply]
    rcases hbad with h | h
    · rw [if_pos (by simpa [StatusOK] using h)]
    · split_ifs <;> rfl
  · rw [GetBalance_reply fl env c w status body hreply]
    rcases hbad with h | h
    · rw [if_pos (by simpa [StatusOK] using h)]
    · split_ifs <;> rfl

/-- C1 (amended) at a concrete response: status 200 with body `ERROR_WRONG_USER_KEY`. -/
theorem C1_witness :
    (Send (idealEnv (fun _ => text 200 "ERROR_WRONG_USER_KEY")) (NewClient "k")
        { Params := [("method", "post")], Files := [] } World.init).1 = .error Err.ErrApi
    ∧ (GetResult (idealEnv (fun _ => text 200 "ERROR_WRONG_USER_KEY")) (NewClient "k")
        "55667" World.init).1 = .error Err.ErrApi :=
  have h := C1_bad_status_or_error_body_is_ErrApi
    (idealEnv (fun _ => text 200 "ERROR_WRONG_USER_KEY")) (NewClient "k") World.init 200
    "ERROR_WRONG_USER_KEY" rfl (Or.inr (by decide))
  ⟨h.1 { Params := [("method", "post")], Files := [] } rfl, h.2.2.1 "55667"⟩

/-- C1 as stated fails on a response with status 500 whose body cannot be read
to its end: the body is read before the status is looked at, and the error of
the read is returned as it is, in the poll context and in the submit context. -/
theorem C1_counterexample :
    (500 : Nat) ≠ 200
    ∧ (GetResult (idealEnv (brokenBody 500)) (NewClient "k") "55667" World.init).1
      = .error Err.readError
    ∧ (GetBalance wholeNumbers (idealEnv (brokenBody 500)) (NewClient "k") World.init).1
      = .error Err.readError
    ∧ (Send (idealEnv (brokenBody 500)) (NewClient "k")
        { Params := [("method", "post")], Files := [] } World.init).1 = .error Err.readError
    ∧ Err.readError ≠ Err.ErrApi := by
  refine ⟨by decide, by decide, by decide, by decide, by decide⟩

/-- C2: for a poll response with status 200, `GetResult` reports "not ready"
(`nil, nil`) exactly when the body is the string `CAPCHA_NOT_READY`; that
response is neither a payload nor an error; and any other body that does not
begin with `OK|` (one that contains or extends the sentinel, for instance) is
`ErrApi`. -/
theorem C2_pending_iff_exact_sentinel (env : Env) (c : Client) (id : String) (w : World)
    (body : String)
    (hreply : env.reply w.calls = some { StatusCode := 200, Body := some body }) :
    ((GetResult env c id w).1 = .ok none ↔ body = "CAPCHA_NOT_READY")
    ∧ (body = "CAPCHA_NOT_READY" →
        (∀ p, (GetResult env c id w).1 ≠ .ok (some p))
        ∧ (∀ e, (GetResult env c id w).1 ≠ .error e))
    ∧ (body ≠ "CAPCHA_NOT_READY" → HasPrefix body "OK|" = false →
        (GetResult env c id w).1 = .error Err.ErrApi) := by
  have hs : HasPrefix "CAPCHA_NOT_READY" "ERROR_" = false := by decide
  rw [GetResult_reply env c id w 200 body hreply]
  refine ⟨⟨fun h => ?_, fun h => ?_⟩, fun h => ?_, fun h1 h2 => ?_⟩
  · by_contra hne
    simp only [StatusOK, ne_eq, not_true_eq_false, if_false, hne] at h
    split_ifs at h
    exact absurd h (by simp)
  · subst h
    simp [StatusOK, hs]
  · subst h
    simp [StatusOK, hs]
  · simp only [StatusOK, ne_eq, not_true_eq_false, if_false, h1, h2]
    split_ifs <;> first | rfl | simp_all

/-- C2 at the sentinel itself. -/
theorem C2_witness :
    (GetResult (idealEnv (fun _ => text 200 "CAPCHA_NOT_READY")) (NewClient "k") "55667"
        World.init).1 = .ok none ↔ "CAPCHA_NOT_READY" = "CAPCHA_NOT_READY" :=
  (C2_pending_iff_exact_sentinel (idealEnv (fun _ => text 200 "CAPCHA_NOT_READY"))
    (NewClient "k") "55667" World.init "CAPCHA_NOT_READY" rfl).1

/-- C3: `Send` (once the request has been sent) and `GetResult` return a value
exactly when the status is 200 and the body begins with `OK|`; the value is
then the body without its first three characters, possibly empty; in every
other case except "not ready" the result is `ErrApi` and carries no payload. -/
theorem C3_success_iff_begins_with_OK (env : Env) (c : Client) (w : World)
    (status : Nat) (body : String)
    (hreply : env.reply w.calls = some { StatusCode := status, Body := some body }) :
    (∀ req : Request, firstUnopenable env req.Files = none →
        ((∃ v, (Send env c req w).1 = .ok v) ↔ (status = 200 ∧ HasPrefix body "OK|" = true))
        ∧ (status = 200 ∧ HasPrefix body "OK|" = true →
            (Send env c req w).1 = .ok (from3 body) ∧ body = "OK|" ++ from3 body)
        ∧ (¬ (status = 200 ∧ HasPrefix body "OK|" = true) →
            (Send env c req w).1 = .error Err.ErrApi))
    ∧ (∀ id : String,
        ((∃ v, (GetResult env c id w).1 = .ok (some v))
          ↔ (status = 200 ∧ HasPrefix body "OK|" = true))
        ∧ (status = 200 ∧ HasPrefix body "OK|" = true →
            (GetResult env c id w).1 = .ok (some (from3 body)) ∧ body = "OK|" ++ from3 body)
        ∧ (¬ (status = 200 ∧ HasPrefix body "OK|" = true) →
            ¬ (status = 200 ∧ body = "CAPCHA_NOT_READY") →
            (GetResult env c id w).1 = .error Err.ErrApi)) := by
  have hsend : ∀ req : Request, firstUnopenable env req.Files = none →
      (status = 200 ∧ HasPrefix body "OK|" = true →
          (Send env c req w).1 = .ok (from3 body) ∧ body = "OK|" ++ from3 body)
      ∧ (¬ (status = 200 ∧ HasPrefix body "OK|" = true) →
          (Send env c req w).1 = .error Err.ErrApi) := by
    intro req hfiles
    rw [Send_reply env c req w status body hfiles hreply]
    refine ⟨fun ⟨h1, h2⟩ => ?_, fun h => ?_⟩
    · obtain ⟨e1, e2, _⟩ := HasPrefix_OK body h2
      exact ⟨by simp [StatusOK, h1, h2, e2], e1⟩
    · by_cases h1 : status = 200
      · have h2 : HasPrefix body "OK|" = false := by
          cases hb : HasPrefix body "OK|"
          · rfl
          · exact absurd ⟨h1, hb⟩ h
        simp only [StatusOK, h1, h2]
        split_ifs <;> first | rfl | simp_all
      · rw [if_pos (by simpa [StatusOK] using h1)]
  have hget : ∀ id : String,
      (status = 200 ∧ HasPrefix body "OK|" = true →
          (GetResult env c id w).1 = .ok (some (from3 body)) ∧ body = "OK|" ++ from3 body)
      ∧ (¬ (status = 200 ∧ HasPrefix body "OK|" = true) →
          ¬ (status = 200 ∧ body = "CAPCHA_NOT_READY") →
          (GetResult env c id w).1 = .error Err.ErrApi)
      ∧ (status = 200 → body = "CAPCHA_NOT_READY" → (GetResult env c id w).1 = .ok none) := by
    intro id
    rw [GetResult_reply env c id w status body hreply]
    refine ⟨fun ⟨h1, h2⟩ => ?_, fun h hp => ?_, fun h1 h2 => ?_⟩
    · obtain ⟨e1, e2, e3⟩ := HasPrefix_OK body h2
      exact ⟨by simp [StatusOK, h1, h2, e2, e3], e1⟩
    · by_cases h1 : status = 200
      · have h2 : HasPrefix body "OK|" = false := by
          cases hb : HasPrefix body "OK|"
          · rfl
          · exact absurd ⟨h1, hb⟩ h
        have h3 : body ≠ "CAPCHA_NOT_READY" := fun hb => hp ⟨h1, hb⟩
        simp only [StatusOK, h1, h2, h3]
        split_ifs <;> first | rfl | simp_all
      · rw [if_pos (by simpa [StatusOK] using h1)]
    · subst h2
      have hs : HasPrefix "CAPCHA_NOT_READY" "ERROR_" = false := by decide
      simp [StatusOK, h1, hs]
  refine ⟨fun req hfiles => ?_, fun id => ?_⟩
  · obtain ⟨a, b⟩ := hsend req hfiles
    refine ⟨⟨fun ⟨v, hv⟩ => ?_, fun h => ⟨_, (a h).1⟩⟩, a, b⟩
    by_contra hn
    rw [b hn] at hv
    exact absurd hv (by simp)
  · obtain ⟨a, b, d⟩ := hget id
    refine ⟨⟨fun ⟨v, hv⟩ => ?_, fun h => ⟨_, (a h).1⟩⟩, a, b⟩
    by_contra hn
    by_cases hp : status = 200 ∧ body = "CAPCHA_NOT_READY"
    · rw [d hp.1 hp.2] at hv
      exact absurd hv (by simp)
    · rw [b hn hp] at hv
      exact absurd hv (by simp)

/-- C3 on the submit response of scenario A and on an empty payload. -/
theorem C3_witness :
    (Send (idealEnv scenarioA) (NewClient "k")
        { Params := [("method", "post")], Files := [] } World.init).1 = .ok (from3 "OK|55667")
    ∧ (GetResult (idealEnv (fun _ => text 200 "OK|")) (NewClient "k") "55667"
        World.init).1 = .ok (some (from3 "OK|")) :=
  ⟨(((C3_success_iff_begins_with_OK (idealEnv scenarioA) (NewClient "k") World.init 200
      "OK|55667" rfl).1 { Params := [("method", "post")], Files := [] } rfl).2.1
      ⟨rfl, by decide⟩).1,
   (((C3_success_iff_begins_with_OK (idealEnv (fun _ => text 200 "OK|")) (NewClient "k")
      World.init 200 "OK|" rfl).2 "55667").2.1 ⟨rfl, by decide⟩).1⟩

/-! ## Leaving the loop -/

theorem pollCount_append (a b : List Event) : pollCount (a ++ b) = pollCount a + pollCount b := by
  induction a with
  | nil => simp [pollCount]
  | cons e rest ih =>
    have hc : (e :: rest) ++ b = e :: (rest ++ b) := rfl
    rw [hc]
    cases e with
    | get path params timeout => simp only [pollCount]; rw [ih]; omega
    | sleep d => simp only [pollCount]; exact ih
    | postForm path params timeout => simp only [pollCount]; exact ih
    | postMultipart path params files timeout => simp only [pollCount]; exact ih

theorem pollCount_roundsTrace (env : Env) (c : Client) (id : String) (d : Int) :
    ∀ j : Nat, pollCount (roundsTrace env c id d j) = j
  | 0 => rfl
  | j + 1 => by simp [roundsTrace, pollCount, pollCount_roundsTrace env c id d j]

/-- After `j` rounds of waiting, with the deadline not yet passed, the next
poll decides. -/
theorem WaitForResult_decides (env : Env) (c : Client) (id : String) (timeout interval : Int)
    (w : World) (j fuel : Nat)
    (hwait : ∀ i, i < j → pollOutcome env c id (w.calls + i) = .ok none
      ∨ pollOutcome env c id (w.calls + i) = .error Err.ErrNetwork)
    (hguard : Sub (afterRounds env c id interval j w).clock w.clock < seconds timeout) :
    WaitForResult (fuel + 1 + j) env c id timeout interval w =
      match pollOutcome env c id (w.calls + j) with
      | .ok (some code) => some (.ok code, afterRounds env c id interval (j + 1) w)
      | .error e =>
        if e ≠ Err.ErrNetwork then some (.error e, afterRounds env c id interval (j + 1) w)
        else waitLoop env c id timeout interval w.clock fuel
          (afterRounds env c id interval (j + 1) w).clock
          (afterRounds env c id interval (j + 1) w)
      | .ok none => waitLoop env c id timeout interval w.clock fuel
          (afterRounds env c id interval (j + 1) w).clock
          (afterRounds env c id interval (j + 1) w) := by
  unfold WaitForResult
  rw [waitLoop_rounds env c id timeout interval w.clock j w (fuel + 1) hwait
    (fun i hi => guard_earlier env c id timeout interval w.clock j w hguard i (by omega))]
  rw [waitLoop_step, if_pos hguard, afterRounds_calls, afterRounds_succ]

/-- After `j` rounds of waiting, with the deadline passed at the loop head, the
loop ends in `ErrTimeout`. -/
theorem WaitForResult_expires (env : Env) (c : Client) (id : String) (timeout interval : Int)
    (w : World) (j fuel : Nat)
    (hwait : ∀ i, i < j → pollOutcome env c id (w.calls + i) = .ok none
      ∨ pollOutcome env c id (w.calls + i) = .error Err.ErrNetwork)
    (hguard : ∀ i, i < j →
      Sub (afterRounds env c id interval i w).clock w.clock < seconds timeout)
    (hexit : ¬ Sub (afterRounds env c id interval j w).clock w.clock < seconds timeout) :
    WaitForResult (fuel + 1 + j) env c id timeout interval w =
      some (.error Err.ErrTimeout, afterRounds env c id interval j w) := by
  unfold WaitForResult
  rw [waitLoop_rounds env c id timeout interval w.clock j w (fuel + 1) hwait hguard]
  rw [waitLoop_step, if_neg hexit]

/-! ## C4: success at poll k -/

/-- C4 (amended): let `timeout` and `interval` be representable as
`time.Duration`s in seconds.  If polls `1..k-1` each yield "not ready" or
`ErrNetwork`, poll `k` yields the payload `p`, and iteration `k` starts before
the deadline (the time taken by the first `k-1` rounds is less than `timeout`
seconds; by `afterRounds_clock_ideal` that is `(k-1) * interval < timeout`
when polls are instantaneous and sleeps exact), then `WaitForResult` returns
`p` with no error after exactly `k` polls, each preceded by one sleep of
`interval` seconds.  Network errors among the first `k-1` polls do not end the
loop. -/
theorem C4_success_at_poll_k (env : Env) (c : Client) (id : String) (timeout interval : Int)
    (w : World) (k : Nat) (p : String) (fuel : Nat)
    (hk : 1 ≤ k)
    (htimeout : timeout * 1000000000 < 2 ^ 63)
    (hinterval : -(2 ^ 63) ≤ interval * 1000000000 ∧ interval * 1000000000 < 2 ^ 63)
    (hwait : ∀ i, i < k - 1 → pollOutcome env c id (w.calls + i) = .ok none
      ∨ pollOutcome env c id (w.calls + i) = .error Err.ErrNetwork)
    (hsuccess : pollOutcome env c id (w.calls + (k - 1)) = .ok (some p))
    (hdeadline : (afterRounds env c id interval (k - 1) w).clock - w.clock
      < timeout * 1000000000)
    (hfuel : k ≤ fuel) :
    ∃ w1 : World, WaitForResult fuel env c id timeout interval w = some (.ok p, w1)
      ∧ w1.calls = w.calls + k
      ∧ w1.sleeps = w.sleeps + k
      ∧ w1.trace = w.trace ++ roundsTrace env c id (interval * 1000000000) k := by
  have hle := afterRounds_clock_le env c id interval (k - 1) w
  have hsec : seconds timeout = timeout * 1000000000 :=
    seconds_of_range timeout (by omega) htimeout
  have hguard : Sub (afterRounds env c id interval (k - 1) w).clock w.clock
      < seconds timeout := by
    rw [hsec, Sub_lt_iff _ _ _ hle htimeout]
    exact hdeadline
  obtain ⟨f, rfl⟩ : ∃ f, fuel = f + 1 + (k - 1) := ⟨fuel - k, by omega⟩
  have h := WaitForResult_decides env c id timeout interval w (k - 1) f hwait hguard
  rw [hsuccess] at h
  have hkk : k - 1 + 1 = k := by omega
  rw [hkk] at h
  refine ⟨_, h, ?_, ?_, ?_⟩
  · rw [afterRounds_calls]
  · rw [afterRounds_sleeps]
  · rw [afterRounds_trace, seconds_of_range interval hinterval.1 hinterval.2]

/-- C4 on scenario A: two "not ready" polls, then `OK|abcdef`, with the
default interval of 5 seconds and timeout of 120 seconds. -/
theorem C4_witness :
    ∃ w1 : World,
      WaitForResult 3 (idealEnv scenarioA) (NewClient "k") "55667" 120 5
          { World.init with calls := 1 } = some (.ok "abcdef", w1)
      ∧ w1.calls = 1 + 3
      ∧ w1.sleeps = 0 + 3
      ∧ w1.trace = [] ++ roundsTrace (idealEnv scenarioA) (NewClient "k") "55667"
          (5 * 1000000000) 3 :=
  C4_success_at_poll_k (idealEnv scenarioA) (NewClient "k") "55667" 120 5
    { World.init with calls := 1 } 3 "abcdef" 3 (by decide) (by decide) (by decide)
    (by decide) (by decide) (by decide) (by decide)

/-- C4 as stated fails when the timeout is not representable: poll 1 would
yield a payload and iteration 1 starts at time 0, before a deadline of
9223372037 seconds, yet the converted timeout is negative, the loop body never
runs and `WaitForResult` returns `ErrTimeout` without polling. -/
theorem C4_counterexample :
    pollOutcome (idealEnv (always "OK|abcdef")) (NewClient "k") "55667" 0 = .ok (some "abcdef")
    ∧ ((1 : Int) - 1) * 5 < hugeTimeout
    ∧ seconds hugeTimeout < 0
    ∧ (∀ fuel : Nat,
        WaitForResult (fuel + 1) (idealEnv (always "OK|abcdef")) (NewClient "k") "55667"
          hugeTimeout 5 World.init = some (.error Err.ErrTimeout, World.init)) := by
  refine ⟨by decide, by decide, by decide, fun fuel => ?_⟩
  unfold WaitForResult
  rw [waitLoop_step, if_neg (by decide)]

/-! ## C5: the timeout boundary -/

theorem ceilDiv_cast (t n : Int) (ht : 0 ≤ t) (hn : 1 ≤ n) :
    (ceilDiv t n : Int) = (t + n - 1) / n := by
  unfold ceilDiv
  exact Int.toNat_of_nonneg (Int.ediv_nonneg (by omega) (by omega))

/-- The value of `ceilDiv` is the least number of intervals that cover the timeout. -/
theorem ceilDiv_bounds (t n : Int) (ht : 0 ≤ t) (hn : 1 ≤ n) :
    t ≤ (ceilDiv t n : Int) * n ∧ (ceilDiv t n : Int) * n < t + n := by
  rw [ceilDiv_cast t n ht hn]
  have h1 := Int.ediv_add_emod (t + n - 1) n
  have h2 := Int.emod_nonneg (t + n - 1) (show n ≠ 0 by omega)
  have h3 := Int.emod_lt_of_pos (t + n - 1) (show 0 < n by omega)
  rw [mul_comm]
  generalize n * ((t + n - 1) / n) = m at h1
  constructor <;> omega

theorem lt_of_lt_ceilDiv (t n : Int) (ht : 0 ≤ t) (hn : 1 ≤ n) (i : Nat)
    (hi : i < ceilDiv t n) : (i : Int) * n < t := by
  have hb := (ceilDiv_bounds t n ht hn).2
  have hi1 : (i : Int) + 1 ≤ (ceilDiv t n : Int) := by exact_mod_cast hi
  have hm : ((i : Int) + 1) * n ≤ (ceilDiv t n : Int) * n :=
    mul_le_mul_of_nonneg_right hi1 (by omega)
  have he : ((i : Int) + 1) * n = (i : Int) * n + n := by ring
  omega

/-- C5 (amended): for `timeout >= 0` representable as a `time.Duration` in
seconds and `interval >= 1`, with polls that take no time and sleeps that last
exactly `interval` seconds: if every poll until the deadline answers "not
ready", `WaitForResult` terminates with `ErrTimeout` after exactly
`ceil(timeout / interval)` sleep-then-poll rounds (none when `timeout` is 0),
and the time slept is less than `timeout + interval` seconds. -/
theorem C5_timeout_after_ceil_rounds (env : Env) (c : Client) (id : String)
    (timeout interval : Int) (w : World) (fuel : Nat)
    (htimeout : 0 ≤ timeout) (hinterval : 1 ≤ interval)
    (hrep : timeout * 1000000000 < 2 ^ 63)
    (hlat : ∀ n, env.latency n = 0)
    (hsleep : ∀ n, sleepTime env (seconds interval) n = interval * 1000000000)
    (hpending : ∀ i, i < ceilDiv timeout interval →
      pollOutcome env c id (w.calls + i) = .ok none)
    (hfuel : ceilDiv timeout interval < fuel) :
    ∃ w1 : World,
      WaitForResult fuel env c id timeout interval w = some (.error Err.ErrTimeout, w1)
      ∧ w1.calls = w.calls + ceilDiv timeout interval
      ∧ w1.sleeps = w.sleeps + ceilDiv timeout interval
      ∧ pollCount w1.trace = pollCount w.trace + ceilDiv timeout interval
      ∧ w1.clock - w.clock = (ceilDiv timeout interval : Int) * (interval * 1000000000)
      ∧ w1.clock - w.clock < (timeout + interval) * 1000000000
      ∧ timeout ≤ (ceilDiv timeout interval : Int) * interval
      ∧ (ceilDiv timeout interval : Int) * interval < timeout + interval
      ∧ (timeout = 0 → w1 = w) := by
  have hsec : seconds timeout = timeout * 1000000000 :=
    seconds_of_range timeout (by omega) hrep
  have hclock := afterRounds_clock_ideal env c id interval hlat hsleep
  obtain ⟨hb1, hb2⟩ := ceilDiv_bounds timeout interval htimeout hinterval
  have hguard : ∀ i, i < ceilDiv timeout interval →
      Sub (afterRounds env c id interval i w).clock w.clock < seconds timeout := by
    intro i hi
    have := lt_of_lt_ceilDiv timeout interval htimeout hinterval i hi
    rw [hsec, Sub_lt_iff _ _ _ (afterRounds_clock_le env c id interval i w) hrep, hclock]
    have he : (i : Int) * (interval * 1000000000) = ((i : Int) * interval) * 1000000000 := by
      ring
    omega
  have hexit : ¬ Sub (afterRounds env c id interval (ceilDiv timeout interval) w).clock w.clock
      < seconds timeout := by
    rw [hsec, Sub_lt_iff _ _ _ (afterRounds_clock_le env c id interval _ w) hrep, hclock]
    have he : (ceilDiv timeout interval : Int) * (interval * 1000000000)
        = ((ceilDiv timeout interval : Int) * interval) * 1000000000 := by ring
    omega
  obtain ⟨f, rfl⟩ : ∃ f, fuel = f + 1 + ceilDiv timeout interval :=
    ⟨fuel - 1 - ceilDiv timeout interval, by omega⟩
  refine ⟨_, WaitForResult_expires env c id timeout interval w _ f
    (fun i hi => Or.inl (hpending i hi)) hguard hexit, ?_, ?_, ?_, ?_, ?_, hb1, hb2, ?_⟩
  · rw [afterRounds_calls]
  · rw [afterRounds_sleeps]
  · rw [afterRounds_trace, pollCount_append, pollCount_roundsTrace]
  · rw [hclock]; ring
  · rw [hclock]
    have he : (ceilDiv timeout interval : Int) * (interval * 1000000000)
        = ((ceilDiv timeout interval : Int) * interval) * 1000000000 := by ring
    omega
  · intro h0
    have hz : ceilDiv timeout interval = 0 := by
      subst h0
      have : (ceilDiv 0 interval : Int) * interval < 0 + interval := hb2
      by_contra hne
      have h1 : (1 : Int) ≤ (ceilDiv 0 interval : Int) := by
        exact_mod_cast Nat.one_le_iff_ne_zero.mpr hne
      have := mul_le_mul_of_nonneg_right h1 (show (0 : Int) ≤ interval by omega)
      omega
    rw [hz]
    rfl

/-- C5 with a timeout of 12 seconds and an interval of 5: three rounds. -/
theorem C5_witness :
    ∃ w1 : World,
      WaitForResult 4 (idealEnv (always "CAPCHA_NOT_READY")) (NewClient "k") "55667" 12 5
          World.init = some (.error Err.ErrTimeout, w1)
      ∧ w1.calls = 0 + ceilDiv 12 5
      ∧ w1.sleeps = 0 + ceilDiv 12 5
      ∧ pollCount w1.trace = pollCount [] + ceilDiv 12 5
      ∧ w1.clock - 0 = (ceilDiv 12 5 : Int) * (5 * 1000000000)
      ∧ w1.clock - 0 < (12 + 5) * 1000000000
      ∧ (12 : Int) ≤ (ceilDiv 12 5 : Int) * 5
      ∧ (ceilDiv 12 5 : Int) * 5 < 12 + 5
      ∧ ((12 : Int) = 0 → w1 = World.init) :=
  C5_timeout_after_ceil_rounds (idealEnv (always "CAPCHA_NOT_READY")) (NewClient "k") "55667"
    12 5 World.init 4 (by decide) (by decide) (by decide) (fun _ => rfl)
    (fun _ => show max (seconds 5) 0 + ((0 : Nat) : Int) = 5 * 1000000000 by decide)
    (by decide) (by decide)

/-- C5 as stated fails when the timeout is not representable: with a timeout of
9223372037 seconds and an interval of 1 second the claim asks for 9223372037
rounds, but the converted timeout is negative and `WaitForResult` returns
`ErrTimeout` at once, having slept and polled zero times. -/
theorem C5_counterexample :
    (0 : Int) ≤ hugeTimeout
    ∧ ceilDiv hugeTimeout 1 = 9223372037
    ∧ (∀ fuel : Nat,
        WaitForResult (fuel + 1) (idealEnv (always "CAPCHA_NOT_READY")) (NewClient "k") "55667"
          hugeTimeout 1 World.init = some (.error Err.ErrTimeout, World.init))
    ∧ World.init.calls = 0 ∧ World.init.sleeps = 0 := by
  refine ⟨by decide, by decide, fun fuel => ?_, rfl, rfl⟩
  unfold WaitForResult
  rw [waitLoop_step, if_neg (by decide)]

/-! ## C6: API errors are fatal -/

theorem Send_snd (env : Env) (c : Client) (req : Request) (w : World) :
    (Send env c req w).2 = (sendRequest env c req w).2 := by
  unfold Send
  generalize sendRequest env c req w = r
  obtain ⟨a, b⟩ := r
  cases a with
  | error e => rfl
  | ok resp =>
    dsimp only
    cases resp.Body with
    | none => rfl
    | some data => dsimp only; split_ifs <;> rfl

theorem pollCount_Send (env : Env) (c : Client) (req : Request) (w : World) :
    pollCount (Send env c req w).2.trace = pollCount w.trace := by
  rw [Send_snd]
  unfold sendRequest httpCall
  dsimp only
  split_ifs
  · cases firstUnopenable env req.Files with
    | some path => rfl
    | none => dsimp only; cases env.reply w.calls <;> simp [pollCount_append, pollCount]
  · cases env.reply w.calls <;> simp [pollCount_append, pollCount]

theorem Solve_of_Send_error (fuel : Nat) (env : Env) (c : Client) (req : Request) (w : World)
    (e : Err) (h : (Send env c req w).1 = .error e) :
    Solve fuel env c req w = some (.error e, (Send env c req w).2) := by
  unfold Solve
  generalize Send env c req w = r at h ⊢
  obtain ⟨a, b⟩ := r
  dsimp only at h
  subst h
  rfl

/-- C6: an error of the submission ends `Solve` with that error and no poll
(in particular `ErrApi`); and if poll `k` takes place (the loop guard holds at
the head of iteration `k`), is the first poll that is neither "not ready" nor
`ErrNetwork`, and yields the error `e`, then `WaitForResult` returns `e` after
exactly `k` polls. -/
theorem C6_api_error_is_fatal (env : Env) (c : Client) :
    (∀ (req : Request) (w : World) (fuel : Nat),
        (Send env c req w).1 = .error Err.ErrApi →
        Solve fuel env c req w = some (.error Err.ErrApi, (Send env c req w).2)
        ∧ pollCount (Send env c req w).2.trace = pollCount w.trace)
    ∧ (∀ (id : String) (timeout interval : Int) (w : World) (k : Nat) (e : Err) (fuel : Nat),
        1 ≤ k →
        (∀ i, i < k - 1 → pollOutcome env c id (w.calls + i) = .ok none
          ∨ pollOutcome env c id (w.calls + i) = .error Err.ErrNetwork) →
        pollOutcome env c id (w.calls + (k - 1)) = .error e →
        e ≠ Err.ErrNetwork →
        Sub (afterRounds env c id interval (k - 1) w).clock w.clock < seconds timeout →
        k ≤ fuel →
        ∃ w1 : World,
          WaitForResult fuel env c id timeout interval w = some (.error e, w1)
          ∧ w1.calls = w.calls + k
          ∧ pollCount w1.trace = pollCount w.trace + k) := by
  refine ⟨fun req w fuel h => ⟨Solve_of_Send_error fuel env c req w _ h, pollCount_Send env c req w⟩,
    fun id timeout interval w k e fuel hk hwait herr hne hguard hfuel => ?_⟩
  obtain ⟨f, rfl⟩ : ∃ f, fuel = f + 1 + (k - 1) := ⟨fuel - k, by omega⟩
  have h := WaitForResult_decides env c id timeout interval w (k - 1) f hwait hguard
  rw [herr] at h
  simp only [hne, ne_eq, not_false_eq_true, if_true] at h
  have hkk : k - 1 + 1 = k := by omega
  rw [hkk] at h
  refine ⟨_, h, ?_, ?_⟩
  · rw [afterRounds_calls]
  · rw [afterRounds_trace, pollCount_append, pollCount_roundsTrace]

/-- C6 on scenario B (the submit is rejected: no poll) and on a task reported
unsolvable at its second poll. -/
theorem C6_witness :
    (Solve 10 (idealEnv scenarioB) (NewClient "k")
        { Params := [("method", "post")], Files := [] } World.init
      = some (.error Err.ErrApi,
          (Send (idealEnv scenarioB) (NewClient "k")
            { Params := [("method", "post")], Files := [] } World.init).2)
      ∧ pollCount (Send (idealEnv scenarioB) (NewClient "k")
            { Params := [("method", "post")], Files := [] } World.init).2.trace = pollCount [])
    ∧ ∃ w1 : World,
        WaitForResult 10 (idealEnv unsolvable) (NewClient "k") "55667" 120 5 World.init
          = some (.error Err.ErrApi, w1)
        ∧ w1.calls = 0 + 2
        ∧ pollCount w1.trace = pollCount [] + 2 :=
  ⟨(C6_api_error_is_fatal (idealEnv scenarioB) (NewClient "k")).1
      { Params := [("method", "post")], Files := [] } World.init 10 (by decide),
   (C6_api_error_is_fatal (idealEnv unsolvable) (NewClient "k")).2 "55667" 120 5 World.init 2
      Err.ErrApi 10 (by decide) (by decide) (by decide) (by decide) (by decide) (by decide)⟩

/-! ## C7: the timeout `Solve` polls with -/

theorem Params.get_set_ne (k k2 v : String) (h : k ≠ k2) :
    ∀ p : Params, (p.set k v).get k2 = p.get k2
  | [] => by simp [Params.set, Params.get, h]
  | (a, b) :: rest => by
    unfold Params.set
    split_ifs with hk
    · subst hk
      simp [Params.get, h]
    · simp only [Params.get]
      rw [Params.get_set_ne k k2 v h rest]

theorem Params.get_cond_set_ne (cond : Prop) [Decidable cond] (k k2 v : String) (h : k ≠ k2)
    (p : Params) : (if cond then p.set k v else p).get k2 = p.get k2 := by
  split_ifs
  · exact Params.get_set_ne k k2 v h p
  · rfl

theorem ToRequest_method {F : Type} (fl : Float64 F) (r : ReCaptcha F) :
    (r.ToRequest fl).Params.get "method" = "userrecaptcha" := by
  unfold ReCaptcha.ToRequest
  dsimp only
  rw [Params.get_cond_set_ne _ "min_score" "method" _ (by decide),
    Params.get_cond_set_ne _ "action" "method" _ (by decide),
    Params.get_cond_set_ne _ "version" "method" _ (by decide),
    Params.get_cond_set_ne _ "invisible" "method" _ (by decide),
    Params.get_cond_set_ne _ "pageurl" "method" _ (by decide),
    Params.get_cond_set_ne _ "googlekey" "method" _ (by decide)]
  decide

theorem Solve_of_Send_ok (fuel : Nat) (env : Env) (c : Client) (req : Request) (w : World)
    (id : String) (h : (Send env c req w).1 = .ok id) :
    Solve fuel env c req w = WaitForResult fuel env c id
      (if req.Params.get "method" = "userrecaptcha" then c.RecaptchaTimeout
        else c.DefaultTimeout)
      c.PollingInterval (Send env c req w).2 := by
  unfold Solve
  generalize Send env c req w = r at h ⊢
  obtain ⟨a, b⟩ := r
  dsimp only at h
  subst h
  dsimp only
  rw [Params.get_set_ne "key" "method" c.ApiKey (by decide)]

/-- C7: when the submission succeeds with task id `id`, `Solve` is
`WaitForResult` on `id` with timeout `RecaptchaTimeout` if the request's
`method` parameter is `userrecaptcha` and `DefaultTimeout` otherwise, and with
interval `PollingInterval`; for a client made by `NewClient` and a request made
by `ReCaptcha.ToRequest`, whatever the `ReCaptcha` value, that is a timeout of
600 seconds and an interval of 5. -/
theorem C7_solve_timeout_selection (env : Env) (w : World) (fuel : Nat) :
    (∀ (c : Client) (req : Request) (id : String), (Send env c req w).1 = .ok id →
        Solve fuel env c req w = WaitForResult fuel env c id
          (if req.Params.get "method" = "userrecaptcha" then c.RecaptchaTimeout
            else c.DefaultTimeout)
          c.PollingInterval (Send env c req w).2)
    ∧ (∀ (F : Type) (fl : Float64 F) (r : ReCaptcha F) (key id : String),
        (Send env (NewClient key) (r.ToRequest fl) w).1 = .ok id →
        Solve fuel env (NewClient key) (r.ToRequest fl) w
          = WaitForResult fuel env (NewClient key) id 600 5
              (Send env (NewClient key) (r.ToRequest fl) w).2) := by
  refine ⟨fun c req id h => Solve_of_Send_ok fuel env c req w id h, fun F fl r key id h => ?_⟩
  rw [Solve_of_Send_ok fuel env (NewClient key) (r.ToRequest fl) w id h, ToRequest_method]
  rfl

/-- C7 on a reCAPTCHA task submitted in scenario A. -/
theorem C7_witness :
    (Send (idealEnv scenarioA) (NewClient "k") (sampleReCaptcha.ToRequest wholeNumbers)
        World.init).1 = .ok "55667"
    ∧ Solve 10 (idealEnv scenarioA) (NewClient "k") (sampleReCaptcha.ToRequest wholeNumbers)
        World.init
      = WaitForResult 10 (idealEnv scenarioA) (NewClient "k") "55667" 600 5
          (Send (idealEnv scenarioA) (NewClient "k") (sampleReCaptcha.ToRequest wholeNumbers)
            World.init).2 :=
  ⟨by decide,
   (C7_solve_timeout_selection (idealEnv scenarioA) World.init 10).2 Nat wholeNumbers
      sampleReCaptcha "k" "55667" (by decide)⟩

/-! ## C8: an unparsable balance -/

/-- C8 (amended): for a balance response with status 200 whose body does not
begin with `ERROR_` and is rejected by `strconv.ParseFloat`, `GetBalance`
fails with the error of `ParseFloat`, returned unchanged; it is not `ErrApi`. -/
theorem C8_unparsable_balance_is_parse_error {F : Type} (fl : Float64 F) (env : Env)
    (c : Client) (w : World) (body : String)
    (hreply : env.reply w.calls = some { StatusCode := 200, Body := some body })
    (hbody : HasPrefix body "ERROR_" = false)
    (hparse : fl.ParseFloat body = none) :
    (GetBalance fl env c w).1 = .error (Err.numError body)
    ∧ (GetBalance fl env c w).1 ≠ .error Err.ErrApi := by
  have h : (GetBalance fl env c w).1 = .error (Err.numError body) := by
    rw [GetBalance_reply fl env c w 200 body hreply, hparse]
    simp [StatusOK, hbody]
  rw [h]
  exact ⟨rfl, by simp⟩

/-- C8 (amended) on the body `abc`. -/
theorem C8_witness :
    (GetBalance wholeNumbers (idealEnv (always "abc")) (NewClient "k") World.init).1
      = .error (Err.numError "abc")
    ∧ (GetBalance wholeNumbers (idealEnv (always "abc")) (NewClient "k") World.init).1
      ≠ .error Err.ErrApi :=
  C8_unparsable_balance_is_parse_error wholeNumbers (idealEnv (always "abc")) (NewClient "k")
    World.init "abc" rfl (by decide) (by decide)

/-- C8 as stated fails on the empty body: status 200, no `ERROR_` prefix,
nothing to parse, and the result is the parse error, not `ErrApi`. -/
theorem C8_counterexample :
    HasPrefix "" "ERROR_" = false
    ∧ wholeNumbers.ParseFloat "" = none
    ∧ (GetBalance wholeNumbers (idealEnv (always "")) (NewClient "k") World.init).1
      = .error (Err.numError "")
    ∧ (GetBalance wholeNumbers (idealEnv (always "")) (NewClient "k") World.init).1
      ≠ .error Err.ErrApi := by
  refine ⟨by decide, by decide, by decide, by decide⟩

/-! ## C9: the kinds of error returned -/

theorem firstUnopenable_some (env : Env) :
    ∀ (files : List (String × String)) (path : String),
      firstUnopenable env files = some path →
      env.canOpen path = false ∧ ∃ name, (name, path) ∈ files
  | [], _, h => by simp [firstUnopenable] at h
  | (name, p) :: rest, path, h => by
    unfold firstUnopenable at h
    split_ifs at h with hp
    · obtain ⟨h1, n, hn⟩ := firstUnopenable_some env rest path h
      exact ⟨h1, n, List.mem_cons_of_mem _ hn⟩
    · simp only [Option.some.injEq] at h
      subst h
      exact ⟨by simpa using hp, name, List.mem_cons_self _ _⟩

theorem res_error (env : Env) (c : Client) (req : Request) (w : World) (e : Err)
    (h : (res env c req w).1 = .error e) :
    e = Err.ErrNetwork ∨ e = Err.ErrApi
      ∨ (e = Err.readError ∧ env.bodyUnreadable w.calls) := by
  unfold res httpCall at h
  dsimp only at h
  cases hr : env.reply w.calls with
  | none =>
    rw [hr] at h
    simp only [Except.error.injEq] at h
    exact Or.inl h.symm
  | some resp =>
    rw [hr] at h
    dsimp only at h
    cases hb : resp.Body with
    | none =>
      rw [hb] at h
      simp only [Except.error.injEq] at h
      exact Or.inr (Or.inr ⟨h.symm, resp, hr, hb⟩)
    | some data =>
      rw [hb] at h
      dsimp only at h
      split_ifs at h
      · simp only [Except.error.injEq] at h
        exact Or.inr (Or.inl h.symm)
      · simp only [Except.error.injEq] at h
        exact Or.inr (Or.inl h.symm)

theorem res_ok (env : Env) (c : Client) (req : Request) (w : World) (data : String)
    (h : (res env c req w).1 = .ok data) :
    ∃ resp, env.reply w.calls = some resp ∧ resp.Body = some data := by
  unfold res httpCall at h
  dsimp only at h
  cases hr : env.reply w.calls with
  | none => rw [hr] at h; exact absurd h (by simp)
  | some resp =>
    rw [hr] at h
    dsimp only at h
    cases hb : resp.Body with
    | none => rw [hb] at h; exact absurd h (by simp)
    | some d =>
      rw [hb] at h
      dsimp only at h
      split_ifs at h
      simp only [Except.ok.injEq] at h
      subst h
      exact ⟨resp, rfl, hb⟩

theorem GetResult_error (env : Env) (c : Client) (id : String) (w : World) (e : Err)
    (h : (GetResult env c id w).1 = .error e) :
    e = Err.ErrNetwork ∨ e = Err.ErrApi
      ∨ (e = Err.readError ∧ env.bodyUnreadable w.calls) := by
  have hres := res_error env c { Params := [("action", "get"), ("id", id)], Files := [] } w
  unfold GetResult at h
  generalize res env c { Params := [("action", "get"), ("id", id)], Files := [] } w = r
    at h hres
  obtain ⟨a, b⟩ := r
  cases a with
  | error e2 =>
    simp only [Except.error.injEq] at h
    subst h
    exact hres _ rfl
  | ok data =>
    dsimp only at h
    split_ifs at h
    simp only [Except.error.injEq] at h
    exact Or.inr (Or.inl h.symm)

theorem pollOutcome_error (env : Env) (c : Client) (id : String) (n : Nat) (e : Err)
    (h : pollOutcome env c id n = .error e) :
    e = Err.ErrNetwork ∨ e = Err.ErrApi ∨ (e = Err.readError ∧ env.bodyUnreadable n) :=
  GetResult_error env c id { World.init with calls := n } e h

theorem waitLoop_error (env : Env) (c : Client) (id : String) (timeout interval start : Int) :
    ∀ (fuel : Nat) (now : Int) (w : World) (e : Err) (w1 : World),
      env.bodiesReadableFrom w.calls →
      waitLoop env c id timeout interval start fuel now w = some (.error e, w1) →
      e = Err.ErrApi ∨ e = Err.ErrTimeout
  | 0, _, _, _, _, _, h => by simp [waitLoop] at h
  | fuel + 1, now, w, e, w1, hread, h => by
    have hnext : env.bodiesReadableFrom (round env c id interval w).calls := by
      rw [round_eq]
      exact fun n resp hn => hread n resp (by dsimp only at hn; omega)
    rw [waitLoop_step] at h
    split_ifs at h with hg
    · cases hp : pollOutcome env c id w.calls with
      | error e2 =>
        rw [hp] at h
        dsimp only at h
        split_ifs at h with hn
        · simp only [Option.some.injEq, Prod.mk.injEq, Except.error.injEq] at h
          obtain ⟨he, _⟩ := h
          subst he
          rcases pollOutcome_error env c id w.calls e2 hp with h1 | h1 | ⟨_, resp, hr, hb⟩
          · exact absurd h1 hn
          · exact Or.inl h1
          · exact absurd hb (hread w.calls resp (le_refl _) hr)
        · exact waitLoop_error env c id timeout interval start fuel _ _ e w1 hnext h
      | ok o =>
        rw [hp] at h
        cases o with
        | none => exact waitLoop_error env c id timeout interval start fuel _ _ e w1 hnext h
        | some code => simp at h
    · simp only [Option.some.injEq, Prod.mk.injEq, Except.error.injEq] at h
      exact Or.inr h.1.symm

/-- What `sendRequest` can do: stop at a file that does not open, fail in
transport, or come back with the response to HTTP call number `w.calls`. -/
theorem sendRequest_cases (env : Env) (c : Client) (req : Request) (w : World) :
    (∃ name path, (name, path) ∈ req.Files ∧ env.canOpen path = false
        ∧ (sendRequest env c req w).1 = .error (Err.pathError path))
    ∨ (sendRequest env c req w).1 = .error Err.ErrNetwork
    ∨ (∃ resp, (sendRequest env c req w).1 = .ok resp ∧ env.reply w.calls = some resp
        ∧ (sendRequest env c req w).2.calls = w.calls + 1) := by
  unfold sendRequest httpCall
  dsimp only
  split_ifs
  · cases hf : firstUnopenable env req.Files with
    | some path =>
      obtain ⟨h1, name, hn⟩ := firstUnopenable_some env req.Files path hf
      exact Or.inl ⟨name, path, hn, h1, rfl⟩
    | none =>
      dsimp only
      cases hr : env.reply w.calls with
      | none => exact Or.inr (Or.inl rfl)
      | some resp => exact Or.inr (Or.inr ⟨resp, rfl, rfl, rfl⟩)
  · cases hr : env.reply w.calls with
    | none => exact Or.inr (Or.inl rfl)
    | some resp => exact Or.inr (Or.inr ⟨resp, rfl, rfl, rfl⟩)

theorem Send_error (env : Env) (c : Client) (req : Request) (w : World) (e : Err)
    (h : (Send env c req w).1 = .error e) :
    e = Err.ErrNetwork ∨ e = Err.ErrApi
      ∨ (∃ name path, (name, path) ∈ req.Files ∧ env.canOpen path = false
          ∧ e = Err.pathError path)
      ∨ (e = Err.readError ∧ env.bodyUnreadable w.calls) := by
  have hc := sendRequest_cases env c req w
  unfold Send at h
  generalize sendRequest env c req w = r at h hc
  obtain ⟨a, b⟩ := r
  cases a with
  | error e2 =>
    simp only [Except.error.injEq] at h
    subst h
    rcases hc with ⟨name, path, hm, ho, he⟩ | he | ⟨resp, he, _⟩
    · simp only [Except.error.injEq] at he
      exact Or.inr (Or.inr (Or.inl ⟨name, path, hm, ho, he⟩))
    · simp only [Except.error.injEq] at he
      exact Or.inl he
    · exact absurd he (by simp)
  | ok resp =>
    have hreply : env.reply w.calls = some resp := by
      rcases hc with ⟨_, _, _, _, he⟩ | he | ⟨r2, he, hr, _⟩
      · exact absurd he (by simp)
      · exact absurd he (by simp)
      · simp only [Except.ok.injEq] at he
        subst he
        exact hr
    dsimp only at h
    cases hb : resp.Body with
    | none =>
      rw [hb] at h
      simp only [Except.error.injEq] at h
      exact Or.inr (Or.inr (Or.inr ⟨h.symm, resp, hreply, hb⟩))
    | some data =>
      rw [hb] at h
      dsimp only at h
      split_ifs at h
      · simp only [Except.error.injEq] at h
        exact Or.inr (Or.inl h.symm)
      · simp only [Except.error.injEq] at h
        exact Or.inr (Or.inl h.symm)
      · simp only [Except.error.injEq] at h
        exact Or.inr (Or.inl h.symm)

theorem Send_ok_calls (env : Env) (c : Client) (req : Request) (w : World) (id : String)
    (h : (Send env c req w).1 = .ok id) : (Send env c req w).2.calls = w.calls + 1 := by
  have hc := sendRequest_cases env c req w
  rw [Send_snd]
  unfold Send at h
  generalize sendRequest env c req w = r at h hc ⊢
  obtain ⟨a, b⟩ := r
  cases a with
  | error e2 => exact absurd h (by simp)
  | ok resp =>
    rcases hc with ⟨_, _, _, _, he⟩ | he | ⟨_, _, _, hcalls⟩
    · exact absurd he (by simp)
    · exact absurd he (by simp)
    · exact hcalls

theorem Solve_error (fuel : Nat) (env : Env) (c : Client) (req : Request) (w : World) (e : Err)
    (w1 : World) (hread : env.bodiesReadableFrom (w.calls + 1))
    (h : Solve fuel env c req w = some (.error e, w1)) :
    e = Err.ErrNetwork ∨ e = Err.ErrApi ∨ e = Err.ErrTimeout
      ∨ (∃ name path, (name, path) ∈ req.Files ∧ env.canOpen path = false
          ∧ e = Err.pathError path)
      ∨ (e = Err.readError ∧ env.bodyUnreadable w.calls) := by
  have hs := Send_error env c req w
  have hc := Send_ok_calls env c req w
  unfold Solve at h
  generalize Send env c req w = r at h hs hc
  obtain ⟨a, b⟩ := r
  cases a with
  | error e2 =>
    simp only [Option.some.injEq, Prod.mk.injEq, Except.error.injEq] at h
    obtain ⟨he, _⟩ := h
    subst he
    rcases hs _ rfl with h1 | h1 | h1 | h1
    · exact Or.inl h1
    · exact Or.inr (Or.inl h1)
    · exact Or.inr (Or.inr (Or.inr (Or.inl h1)))
    · exact Or.inr (Or.inr (Or.inr (Or.inr h1)))
  | ok id =>
    dsimp only at h
    have hb : b.calls = w.calls + 1 := hc id rfl
    rcases waitLoop_error env c id _ _ _ fuel _ _ e w1 (by rw [hb]; exact hread) h with h1 | h1
    · exact Or.inr (Or.inl h1)
    · exact Or.inr (Or.inr (Or.inl h1))

theorem GetBalance_error {F : Type} (fl : Float64 F) (env : Env) (c : Client) (w : World)
    (e : Err) (h : (GetBalance fl env c w).1 = .error e) :
    e = Err.ErrNetwork ∨ e = Err.ErrApi
      ∨ (e = Err.readError ∧ env.bodyUnreadable w.calls)
      ∨ (∃ resp body, env.reply w.calls = some resp ∧ resp.Body = some body
          ∧ fl.ParseFloat body = none ∧ e = Err.numError body) := by
  have hres := res_error env c { Params := [("action", "getbalance")], Files := [] } w
  have hok := res_ok env c { Params := [("action", "getbalance")], Files := [] } w
  unfold GetBalance resAction at h
  generalize res env c { Params := [("action", "getbalance")], Files := [] } w = r
    at h hres hok
  obtain ⟨a, b⟩ := r
  cases a with
  | error e2 =>
    simp only [Except.error.injEq] at h
    subst h
    rcases hres _ rfl with h1 | h1 | h1
    · exact Or.inl h1
    · exact Or.inr (Or.inl h1)
    · exact Or.inr (Or.inr (Or.inl h1))
  | ok data =>
    obtain ⟨resp, hr, hb⟩ := hok data rfl
    dsimp only at h
    cases hp : fl.ParseFloat data with
    | none =>
      rw [hp] at h
      simp only [Except.error.injEq] at h
      exact Or.inr (Or.inr (Or.inr ⟨resp, data, hr, hb, hp, h.symm⟩))
    | some v => rw [hp] at h; exact absurd h (by simp)

/-- C9 (amended): under the conventions of this file (a client from
`NewClient` with a `BaseURL` that `http.NewRequest` accepts, a request whose
`Params` map is not nil, HTTP calls that come back), what a public entry point
returns is a result value or one of the following errors.
`Send`: `ErrNetwork`, `ErrApi`, the unchanged `os.Open` error of a path of
`req.Files` that does not open, or the unchanged error of the failed read of
its response body.
`GetResult`: `ErrNetwork`, `ErrApi`, or the unchanged error of the failed read
of its response body.
`GetBalance`: those of `GetResult`, or the unchanged `strconv.ParseFloat`
error on a body it rejects.
`WaitForResult`, when the body of every poll that is answered is read in
full: `ErrApi` or `ErrTimeout`.
`Solve`, under the same condition on its polls: an error of `Send`, `ErrApi`
or `ErrTimeout`. -/
theorem C9_error_kinds (env : Env) (c : Client) :
    (∀ (req : Request) (w : World) (e : Err), (Send env c req w).1 = .error e →
        e = Err.ErrNetwork ∨ e = Err.ErrApi
          ∨ (∃ name path, (name, path) ∈ req.Files ∧ env.canOpen path = false
              ∧ e = Err.pathError path)
          ∨ (e = Err.readError ∧ env.bodyUnreadable w.calls))
    ∧ (∀ (fuel : Nat) (req : Request) (w : World) (e : Err) (w1 : World),
        env.bodiesReadableFrom (w.calls + 1) →
        Solve fuel env c req w = some (.error e, w1) →
        e = Err.ErrNetwork ∨ e = Err.ErrApi ∨ e = Err.ErrTimeout
          ∨ (∃ name path, (name, path) ∈ req.Files ∧ env.canOpen path = false
              ∧ e = Err.pathError path)
          ∨ (e = Err.readError ∧ env.bodyUnreadable w.calls))
    ∧ (∀ (fuel : Nat) (id : String) (timeout interval : Int) (w : World) (e : Err) (w1 : World),
        env.bodiesReadableFrom w.calls →
        WaitForResult fuel env c id timeout interval w = some (.error e, w1) →
        e = Err.ErrApi ∨ e = Err.ErrTimeout)
    ∧ (∀ (id : String) (w : World) (e : Err), (GetResult env c id w).1 = .error e →
        e = Err.ErrNetwork ∨ e = Err.ErrApi
          ∨ (e = Err.readError ∧ env.bodyUnreadable w.calls))
    ∧ (∀ (F : Type) (fl : Float64 F) (w : World) (e : Err),
        (GetBalance fl env c w).1 = .error e →
        e = Err.ErrNetwork ∨ e = Err.ErrApi
          ∨ (e = Err.readError ∧ env.bodyUnreadable w.calls)
          ∨ (∃ resp body, env.reply w.calls = some resp ∧ resp.Body = some body
              ∧ fl.ParseFloat body = none ∧ e = Err.numError body)) :=
  ⟨Send_error env c,
   fun fuel req w e w1 hread h => Solve_error fuel env c req w e w1 hread h,
   fun fuel id timeout interval w e w1 hread h =>
     waitLoop_error env c id timeout interval w.clock fuel w.clock w e w1 hread h,
   GetResult_error env c,
   fun _ fl w e h => GetBalance_error fl env c w e h⟩

/-- C9 (amended) on a `Send` whose attachment cannot be opened, and on the
polling of a task reported unsolvable at the second poll. -/
theorem C9_witness :
    (Err.pathError "/tmp/captcha.png" = Err.ErrNetwork
      ∨ Err.pathError "/tmp/captcha.png" = Err.ErrApi
      ∨ (∃ name path, (name, path) ∈ fileRequest.Files
          ∧ (noFilesEnv scenarioA).canOpen path = false
          ∧ Err.pathError "/tmp/captcha.png" = Err.pathError path)
      ∨ (Err.pathError "/tmp/captcha.png" = Err.readError
          ∧ (noFilesEnv scenarioA).bodyUnreadable World.init.calls))
    ∧ (WaitForResult 10 (idealEnv unsolvable) (NewClient "k") "55667" 120 5 World.init
          = some (.error Err.ErrApi, afterRounds (idealEnv unsolvable) (NewClient "k")
              "55667" 5 2 World.init)
        ∧ (Err.ErrApi = Err.ErrApi ∨ Err.ErrApi = Err.ErrTimeout)) :=
  ⟨(C9_error_kinds (noFilesEnv scenarioA) (NewClient "k")).1 fileRequest World.init
      (Err.pathError "/tmp/captcha.png") (by decide),
   by decide,
   (C9_error_kinds (idealEnv unsolvable) (NewClient "k")).2.2.1 10 "55667" 120 5 World.init
      Err.ErrApi (afterRounds (idealEnv unsolvable) (NewClient "k") "55667" 5 2 World.init)
      (fun n resp _ hr => by
        cases n with
        | zero =>
          simp only [idealEnv, unsolvable, text, Option.some.injEq] at hr
          subst hr
          simp
        | succ m =>
          simp only [idealEnv, unsolvable, text, Option.some.injEq] at hr
          subst hr
          simp)
      (by decide)⟩

/-- C9 as stated fails when an attachment cannot be opened: `Send` and `Solve`
return the error of `os.Open`, which is none of the three kinds. -/
theorem C9_counterexample :
    (Send (noFilesEnv scenarioA) (NewClient "k") fileRequest World.init).1
      = .error (Err.pathError "/tmp/captcha.png")
    ∧ (Solve 10 (noFilesEnv scenarioA) (NewClient "k") fileRequest World.init).map (fun r => r.1)
      = some (.error (Err.pathError "/tmp/captcha.png"))
    ∧ Err.pathError "/tmp/captcha.png" ≠ Err.ErrNetwork
    ∧ Err.pathError "/tmp/captcha.png" ≠ Err.ErrApi
    ∧ Err.pathError "/tmp/captcha.png" ≠ Err.ErrTimeout := by
  refine ⟨by decide, by decide, by decide, by decide, by decide⟩

/-! ## C10: which HTTP calls carry the request timeout -/

/-- C10 at concrete calls of a fresh client (`DefaultTimeout` 120 seconds):
`c.httpClient.Timeout` is set to 120 seconds by every entry point, and the
multipart POST goes through `c.httpClient` and carries it; but the GET to
`/res.php` and the form POST to `/in.php` go through `http.DefaultClient` and
carry no timeout. -/
theorem C10_default_client_calls_carry_no_timeout :
    (GetResult (idealEnv scenarioA) (NewClient "k") "55667" World.init).2.clientTimeout
      = 120 * 1000000000
    ∧ (GetResult (idealEnv scenarioA) (NewClient "k") "55667" World.init).2.trace
      = [Event.get "/res.php" [("action", "get"), ("id", "55667"), ("key", "k")] 0]
    ∧ (GetBalance wholeNumbers (idealEnv scenarioA) (NewClient "k") World.init).2.trace
      = [Event.get "/res.php" [("action", "getbalance"), ("key", "k")] 0]
    ∧ (Send (idealEnv scenarioA) (NewClient "k")
        { Params := [("method", "post")], Files := [] } World.init).2.trace
      = [Event.postForm "/in.php" [("method", "post"), ("key", "k")] 0]
    ∧ (Send (idealEnv scenarioA) (NewClient "k") fileRequest World.init).2.trace
      = [Event.postMultipart "/in.php" [("method", "post"), ("key", "k")]
          [("file", "/tmp/captcha.png")] (120 * 1000000000)] := by
  refine ⟨by decide, by decide, by decide, by decide, by decide⟩

end Api2Captcha
